import Mathlib

/-!
# GO-chat: shallow embedding and verification

This file embeds the core of the GO-chat repository (a WebSocket chat server)
in Lean 4 and settles a list of claims about it.

Embedding conventions:
* Go strings that are known to be valid UTF-8 (which is all strings reaching
  the validators, since Go's `encoding/json` decoder coerces its output to
  valid UTF-8) are modelled as Lean `String` / `List Char`; the
  `utf8.ValidString` check in the source is therefore identically true in the
  model and is noted where it occurs.
* `time.Time` values are modelled as `Int` nanoseconds.
* Go channels of `[]byte` holding serialized frames are modelled as a list of
  `Msg` values together with a `closed` flag; JSON serialization of the
  `Message` struct (`json.Marshal`) cannot fail for this struct and is
  modelled as the identity on `Msg`.
* A non-blocking `select { case ch <- v: default: }` on a channel: if the
  channel is closed the send case is chosen and panics (Go semantics: a send
  on a closed channel is ready and panics when executed); otherwise the send
  succeeds when the buffer has room and the default branch runs when it is
  full.  Panics that are caught by a `recover` in the source are modelled as
  explicit outcomes.
-/

namespace GoChat

/-! ## Association lists modelling Go maps

Go maps cannot contain duplicate keys; we model them as association lists
where `aset` replaces in place and `aerase` removes every binding of a key. -/

def alookup {α β : Type} [DecidableEq α] (l : List (α × β)) (k : α) : Option β :=
  match l with
  | [] => none
  | p :: rest => if p.1 = k then some p.2 else alookup rest k

def aset {α β : Type} [DecidableEq α] (l : List (α × β)) (k : α) (v : β) : List (α × β) :=
  match l with
  | [] => [(k, v)]
  | p :: rest => if p.1 = k then (k, v) :: rest else p :: aset rest k v

def aerase {α β : Type} [DecidableEq α] (l : List (α × β)) (k : α) : List (α × β) :=
  l.filter (fun p => p.1 ≠ k)

theorem alookup_aset {α β : Type} [DecidableEq α] (l : List (α × β)) (k h : α) (v : β) :
    alookup (aset l k v) h = if k = h then some v else alookup l h := by
  induction l with
  | nil => simp [aset, alookup]
  | cons p rest ih =>
    by_cases hp : p.1 = k
    · subst hp
      by_cases hkh : p.1 = h <;> simp [aset, alookup, hkh]
    · by_cases hph : p.1 = h
      · subst hph
        have hk : ¬ k = p.1 := fun he => hp he.symm
        simp [aset, alookup, hp, hk]
      · simp [aset, alookup, hp, hph, ih]

theorem alookup_aerase {α β : Type} [DecidableEq α] (l : List (α × β)) (k h : α) :
    alookup (aerase l k) h = if k = h then none else alookup l h := by
  induction l with
  | nil => simp [aerase, alookup]
  | cons p rest ih =>
    by_cases hph : p.1 = h
    · subst hph
      by_cases hk : p.1 = k
      · simp [aerase, alookup, hk, List.filter] at ih ⊢
        simpa [hk] using ih
      · have : k ≠ p.1 := fun he => hk he.symm
        simp [aerase, alookup, List.filter, hk, this]
    · by_cases hk : p.1 = k
      · subst hk
        simp [aerase, alookup, List.filter, hph] at ih ⊢
        simpa using ih
      · simp [aerase, alookup, List.filter, hk, hph] at ih ⊢
        simpa [hph] using ih

theorem mem_aerase {α β : Type} [DecidableEq α] (l : List (α × β)) (k : α) (p : α × β) :
    p ∈ aerase l k → p ∈ l := by
  intro h
  exact (List.mem_filter.mp h).1

/-! ## Character and string helpers (from Go's standard library behavior) -/

/-- `unicode.IsSpace` for the code points relevant to `strings.TrimSpace`:
Latin-1 white space and the Unicode `White_Space` property. -/
def isGoSpace (c : Char) : Bool :=
  let n := c.toNat
  n = 9 || n = 10 || n = 11 || n = 12 || n = 13 || n = 32 || n = 0x85 || n = 0xA0 ||
  n = 0x1680 || (0x2000 ≤ n && n ≤ 0x200A) || n = 0x2028 || n = 0x2029 ||
  n = 0x202F || n = 0x205F || n = 0x3000

/-- `strings.TrimSpace`: drop leading and trailing white space. -/
def trimSpace (s : List Char) : List Char :=
  ((s.dropWhile isGoSpace).reverse.dropWhile isGoSpace).reverse

/-- Number of bytes of the UTF-8 encoding of one code point; Go `len` of a
(valid UTF-8) string is the sum of these. -/
def utf8Len (c : Char) : Nat :=
  if c.toNat < 0x80 then 1
  else if c.toNat < 0x800 then 2
  else if c.toNat < 0x10000 then 3
  else 4

def byteLen (s : List Char) : Nat :=
  (s.map utf8Len).sum

theorem utf8Len_pos (c : Char) : 0 < utf8Len c := by
  unfold utf8Len
  split <;> try split <;> try split
  all_goals simp

theorem byteLen_pos_iff (s : List Char) : 0 < byteLen s ↔ s ≠ [] := by
  cases s with
  | nil => simp [byteLen]
  | cons c rest =>
    simp only [byteLen, List.map_cons, List.sum_cons]
    constructor
    · intro _ h
      exact List.noConfusion h
    · intro _
      exact Nat.lt_of_lt_of_le (utf8Len_pos c) (Nat.le_add_right _ _)

/-- ASCII lower-casing, used to model the `(?i)` flag of the script-injection
regex on its ASCII pattern letters. -/
def lowerAscii (c : Char) : Char :=
  if 65 ≤ c.toNat && c.toNat ≤ 90 then Char.ofNat (c.toNat + 32) else c

/-- `\w` of Go's regexp package: `[0-9A-Za-z_]`. -/
def isWordChar (c : Char) : Bool :=
  (48 ≤ c.toNat && c.toNat ≤ 57) || (65 ≤ c.toNat && c.toNat ≤ 90) ||
  (97 ≤ c.toNat && c.toNat ≤ 122) || c = '_'

/-- `\s` of Go's regexp package: `[\t\n\f\r ]`. -/
def isRegexSpace (c : Char) : Bool :=
  c = ' ' || c = '\t' || c = '\n' || c.toNat = 12 || c = '\r'

/-- Substring containment of a fixed pattern. -/
def containsSub (pat : List Char) : List Char → Bool
  | [] => pat.isEmpty
  | c :: rest => pat.isPrefixOf (c :: rest) || containsSub pat rest

/-- The regex `<[^>]*>` matches a string iff some occurrence of a left angle
bracket is followed, further right, by a right angle bracket (the first such
right bracket yields a match with only non-bracket characters in between). -/
def hasHtmlTag : List Char → Bool
  | [] => false
  | c :: rest => (c = '<' && rest.contains '>') || hasHtmlTag rest

/-- Prefix matcher for the tail regex fragment: zero or more `\s`, then an
equals sign. -/
def spacesThenEq : List Char → Bool
  | [] => false
  | c :: rest => c = '=' || (isRegexSpace c && spacesThenEq rest)

/-- Prefix matcher for the regex fragment `\w*\s*=`. -/
def wordsThenEq : List Char → Bool
  | [] => false
  | c :: rest =>
    c = '=' || (isWordChar c && wordsThenEq rest) || (isRegexSpace c && spacesThenEq rest)

/-- Prefix matcher for the regex fragment appearing after the letters `on` in
the pattern: one or more `\w`, zero or more `\s`, then an equals sign. -/
def wordThenSpacesEq : List Char → Bool
  | [] => false
  | c :: rest => isWordChar c && wordsThenEq rest

/-- Scan of a (lower-cased) string for the sub-pattern `on\w+\s*=`. -/
def hasOnAttr : List Char → Bool
  | [] => false
  | c :: rest =>
    (c = 'o' &&
      (match rest with
       | [] => false
       | d :: more => d = 'n' && wordThenSpacesEq more)) || hasOnAttr rest

/-- The regex `(?i)(javascript:|vbscript:|data:|on\w+\s*=)` from
`validateDisplayName`: matched on the ASCII-lower-cased text (the `(?i)` flag
also performs simple Unicode case folding; inputs relying on non-ASCII folds
of the pattern letters are outside this model). -/
def hasScriptPattern (s : List Char) : Bool :=
  let sl := s.map lowerAscii
  containsSub "javascript:".data sl || containsSub "vbscript:".data sl ||
  containsSub "data:".data sl || hasOnAttr sl

/-- The control-character loop of `validateDisplayName`: rejects a rune below
32 other than tab (9), line feed (10) and carriage return (13). -/
def hasBadControl (s : List Char) : Bool :=
  s.any fun c => c.toNat < 32 && c.toNat ≠ 9 && c.toNat ≠ 10 && c.toNat ≠ 13

/-- `html.EscapeString` on one character. -/
def escapeChar (c : Char) : List Char :=
  if c = '&' then "&amp;".data
  else if c = '\'' then "&#39;".data
  else if c = '<' then "&lt;".data
  else if c = '>' then "&gt;".data
  else if c = '"' then "&#34;".data
  else [c]

def escapeString (s : String) : String :=
  ⟨(s.data.map escapeChar).flatten⟩

def trimSpaceStr (s : String) : String :=
  ⟨trimSpace s.data⟩

/-! ## Messages (src/message.go) -/

/-- Message type constants. -/
def MessageTypeChat : String := "chat"

def MessageTypePrivate : String := "private"

def MessageTypeSystem : String := "system"

def MessageTypeUserList : String := "user_list"

def MessageTypeError : String := "error"

def MessageTypeJoin : String := "join"

/-- The `Message` struct.  Field names are lower-cased where the Go
capitalized name collides with a Lean keyword (`Type`, `From`).  `Users` is
`Option` to model the `nil` slice distinguished by `Validate`. -/
structure Msg where
  type : String := ""
  from_ : String := ""
  to_ : String := ""
  content : String := ""
  users : Option (List String) := none
  error : String := ""
  timestamp : Int := 0
  deriving DecidableEq, Repr

/-- `validateDisplayName` from src/message.go.  Returns `some errText` for the
Go non-nil error and `none` for success.  The `utf8.ValidString` check between
the length check and the control-character loop is identically true in this
model (see the header) and is omitted. -/
def validateDisplayName (name : String) : Option String :=
  let trimmed := trimSpace name.data
  if trimmed = [] then some "display name cannot be empty"
  else if byteLen trimmed > 50 then some "display name cannot exceed 50 characters"
  else if hasBadControl trimmed then some "display name contains invalid control characters"
  else if hasHtmlTag trimmed then some "display name cannot contain HTML tags"
  else if hasScriptPattern trimmed then some "display name contains prohibited script content"
  else none

/-- `validateMessageContent` from src/message.go (the `utf8.ValidString` check
is identically true in this model). -/
def validateMessageContent (content : String) : Option String :=
  let trimmed := trimSpace content.data
  if trimmed = [] then some "message content cannot be empty"
  else if byteLen trimmed > 1000 then some "message content cannot exceed 1000 characters"
  else none

/-- `Message.Validate` from src/message.go. -/
def Msg.Validate (m : Msg) : Option String :=
  if m.type = "" then some "message type is required"
  else if ¬(m.type = MessageTypeChat ∨ m.type = MessageTypePrivate ∨
      m.type = MessageTypeSystem ∨ m.type = MessageTypeUserList ∨
      m.type = MessageTypeError ∨ m.type = MessageTypeJoin) then
    some "invalid message type"
  else if m.type = MessageTypeChat then
    match validateMessageContent m.content with
    | some e => some e
    | none =>
      match validateDisplayName m.from_ with
      | some e => some ("chat message sender invalid: " ++ e)
      | none => none
  else if m.type = MessageTypePrivate then
    match validateMessageContent m.content with
    | some e => some e
    | none =>
      match validateDisplayName m.from_ with
      | some e => some ("private message sender invalid: " ++ e)
      | none =>
        if m.to_ = "" then some "private message must have recipient (To field)"
        else
          match validateDisplayName m.to_ with
          | some e => some ("private message recipient invalid: " ++ e)
          | none =>
            if m.from_ = m.to_ then some "cannot send private message to yourself"
            else none
  else if m.type = MessageTypeJoin then
    match validateDisplayName m.content with
    | some e => some ("join message display name invalid: " ++ e)
    | none => none
  else if m.type = MessageTypeError then
    if m.error = "" then some "error message must have error field" else none
  else if m.type = MessageTypeUserList then
    if m.users = none then some "user_list message must have users field" else none
  else none

/-- `Message.SanitizeInput` from src/message.go: HTML-escape and trim the
string fields that are set, and every user list entry. -/
def Msg.SanitizeInput (m : Msg) : Msg :=
  { m with
    from_ := if m.from_ ≠ "" then escapeString (trimSpaceStr m.from_) else m.from_
    to_ := if m.to_ ≠ "" then escapeString (trimSpaceStr m.to_) else m.to_
    content := if m.content ≠ "" then escapeString (trimSpaceStr m.content) else m.content
    error := if m.error ≠ "" then escapeString (trimSpaceStr m.error) else m.error
    users := m.users.map (fun l => l.map (fun u => escapeString (trimSpaceStr u))) }

/-- An error-type frame as built throughout src/client.go and src/hub.go:
`&Message{Type: MessageTypeError, Error: text}` followed by `SetTimestamp`. -/
def errorFrame (text : String) (now : Int) : Msg :=
  { type := MessageTypeError, error := text, timestamp := now }

/-- A system broadcast frame (`&Message{Type: MessageTypeSystem, Content: c}`
followed by `SetTimestamp`). -/
def systemFrame (content : String) (now : Int) : Msg :=
  { type := MessageTypeSystem, content := content, timestamp := now }

/-! ## Client (src/client.go) -/

/-- `maxMessagesPerMinute = 30`. -/
def maxMessagesPerMinute : Nat := 30

/-- `rateLimitWindow = time.Minute`, in nanoseconds. -/
def rateLimitWindow : Int := 60000000000

/-- Capacity of a client's outbound channel: `make(chan []byte, 256)` in
`NewClient`. -/
def sendChanCap : Nat := 256

/-- Per-connection client state (the `Client` struct): display name,
rate-limit timestamps, activity metadata, and the client's own outbound
channel contents together with its closed flag. -/
structure ClientState where
  displayName : String := ""
  messageTimestamps : List Int := []
  connectedAt : Int := 0
  lastActivity : Int := 0
  sendQueue : List Msg := []
  sendClosed : Bool := false
  deriving DecidableEq, Repr

/-- `checkRateLimit`: prune to the timestamps strictly after
`now.Add(-rateLimitWindow)` (Go `timestamp.After(cutoff)`), store the pruned
list, deny if at least `maxMessagesPerMinute` remain, otherwise record `now`
and allow. -/
def checkRateLimit (c : ClientState) (now : Int) : Bool × ClientState :=
  let validTimestamps := c.messageTimestamps.filter (fun t => t > now - rateLimitWindow)
  if maxMessagesPerMinute ≤ validTimestamps.length then
    (false, { c with messageTimestamps := validTimestamps })
  else
    (true, { c with messageTimestamps := validTimestamps ++ [now] })

/-- `getRemainingRateLimit` (read-only; `Nat` subtraction models the
clamp of negative remainders to zero). -/
def getRemainingRateLimit (c : ClientState) (now : Int) : Nat :=
  maxMessagesPerMinute -
    (c.messageTimestamps.filter (fun t => t > now - rateLimitWindow)).length

/-- Outcome of a non-blocking channel send (`select`/`default`). -/
inductive SendOutcome where
  | sent
  | dropped
  | panicked
  deriving DecidableEq, Repr

/-- `sendErrorMessage`: non-blocking send of a frame on the client's own
channel; a full channel drops the frame (logged only); a closed channel
panics out of the read loop (no `recover` before `ReadPump`'s deferred one). -/
def sendErrorMessage (c : ClientState) (m : Msg) : ClientState × SendOutcome :=
  if c.sendClosed then (c, SendOutcome.panicked)
  else if c.sendQueue.length < sendChanCap then
    ({ c with sendQueue := c.sendQueue ++ [m] }, SendOutcome.sent)
  else (c, SendOutcome.dropped)

/-- The hub request issued (if any) while handling one inbound frame. -/
inductive HubAction where
  | none
  | registerClient (name : String)
  | broadcast (m : Msg)
  deriving DecidableEq, Repr

structure FrameOutcome where
  client : ClientState
  action : HubAction
  panicked : Bool := false
  deriving DecidableEq, Repr

/-- The body of `ReadPump`'s loop for one frame, from the point where the
frame has been parsed from JSON (lines 192-283 of src/client.go): schema
validation, activity update, and the dispatch switch on the message type.
The switch has cases only for `MessageTypeJoin` and `MessageTypeChat`; every
other type, including `MessageTypePrivate`, falls through to the unknown-type
default branch. -/
def processFrame (c : ClientState) (m : Msg) (now : Int) : FrameOutcome :=
  match m.Validate with
  | some e =>
    let r := sendErrorMessage c (errorFrame ("Message validation failed: " ++ e) now)
    { client := r.1, action := HubAction.none, panicked := r.2 == SendOutcome.panicked }
  | none =>
    let c0 := { c with lastActivity := now }
    if m.type = MessageTypeJoin then
      match validateDisplayName m.content with
      | some e =>
        let r := sendErrorMessage c0 (errorFrame ("Display name error: " ++ e) now)
        { client := r.1, action := HubAction.none, panicked := r.2 == SendOutcome.panicked }
      | none =>
        let c1 := { c0 with displayName := trimSpaceStr m.content }
        { client := c1, action := HubAction.registerClient c1.displayName }
    else if m.type = MessageTypeChat then
      if c0.displayName = "" then
        let r := sendErrorMessage c0 (errorFrame "Must join chat before sending messages" now)
        { client := r.1, action := HubAction.none, panicked := r.2 == SendOutcome.panicked }
      else
        let rl := checkRateLimit c0 now
        if rl.1 = false then
          let r := sendErrorMessage rl.2
            (errorFrame "Rate limit exceeded. Please slow down your messages." now)
          { client := r.1, action := HubAction.none, panicked := r.2 == SendOutcome.panicked }
        else
          match validateMessageContent m.content with
          | some e =>
            let r := sendErrorMessage rl.2 (errorFrame ("Message validation failed: " ++ e) now)
            { client := r.1, action := HubAction.none, panicked := r.2 == SendOutcome.panicked }
          | none =>
            let m1 := Msg.SanitizeInput { m with from_ := rl.2.displayName, timestamp := now }
            { client := rl.2, action := HubAction.broadcast m1 }
    else
      let r := sendErrorMessage c0 (errorFrame ("Unknown message type: " ++ m.type) now)
      { client := r.1, action := HubAction.none, panicked := r.2 == SendOutcome.panicked }

/-! ## Hub (src/hub.go)

Clients are identified by opaque numeric identities (Go uses the `*Client`
pointer as the map key).  The registered-client map `clients` is modelled as
a duplicate-free list whose order models the (unspecified) map iteration
order used by the broadcast loop.  Each client's outbound channel is the
`chans` field. -/

/-- `maxConcurrentConnections = 1000`. -/
def maxConcurrentConnections : Nat := 1000

/-- A client's outbound channel as the hub sees it. -/
structure Chan where
  buf : List Msg := []
  closed : Bool := false
  deriving DecidableEq, Repr

structure HubState where
  clients : List Nat := []
  userList : List (Nat × String) := []
  clientsByName : List (String × Nat) := []
  chans : Nat → Chan := fun _ => {}

def emptyHub : HubState := {}

def updateChan (s : HubState) (c : Nat) (ch : Chan) : HubState :=
  { s with chans := fun x => if x = c then ch else s.chans x }

def usersOf (s : HubState) : List String :=
  s.userList.map Prod.snd

/-- The frame built by `BroadcastUserList` from the current user list. -/
def userListFrame (s : HubState) (now : Int) : Msg :=
  { type := MessageTypeUserList, users := some (usersOf s), timestamp := now }

/-- Result of processing one `unregister` event: the new state, the frames the
handler pushes onto the broadcast channel, and whether the send channel was
actually closed by this event (closing an already-closed channel panics and
is swallowed by the dedicated `recover`). -/
structure UnregResult where
  state : HubState
  emitted : List Msg
  didClose : Bool

/-- The `case client := <-h.unregister` handler of `Hub.Run` (lines 155-197):
a no-op unless the client is currently registered; otherwise remove it from
the client set, close its send channel, drop it from `userList` and from
`clientsByName` under its current display name, then emit the "has left the
chat" system broadcast (only for a non-empty name) and the refreshed user
list. -/
def unregisterEvent (s : HubState) (c : Nat) (now : Int) : UnregResult :=
  if c ∈ s.clients then
    let didClose := (s.chans c).closed = false
    let s1 := updateChan { s with clients := s.clients.erase c } c
      { s.chans c with closed := true }
    let name := (alookup s.userList c).getD ""
    let s2 := { s1 with userList := aerase s1.userList c,
                        clientsByName := aerase s1.clientsByName name }
    let emitted :=
      (if name ≠ "" then [systemFrame (name ++ " has left the chat") now] else []) ++
        [userListFrame s2 now]
    ⟨s2, emitted, didClose⟩
  else ⟨s, [], false⟩

/-- The cleanup block of the broadcast loop's `default` branch (lines
211-225): close the channel, remove the client from the client set, from
`userList`, and from `clientsByName` under its current display name. -/
def evictClient (s : HubState) (c : Nat) : HubState :=
  let s1 := updateChan { s with clients := s.clients.erase c } c
    { s.chans c with closed := true }
  let name := (alookup s.userList c).getD ""
  { s1 with userList := aerase s1.userList c,
            clientsByName := aerase s1.clientsByName name }

/-- The `for client := range h.clients` loop of the broadcast handler (lines
207-227).  For each client a non-blocking send is attempted: a closed channel
makes the chosen send case panic, which the handler-level `recover` catches,
abandoning the rest of the loop (state changes already made persist); a full
channel triggers the `default` cleanup branch; otherwise the frame is
enqueued. -/
def broadcastLoop (data : Msg) : List Nat → HubState → HubState
  | [], s => s
  | c :: rest, s =>
    if (s.chans c).closed then s
    else if (s.chans c).buf.length < sendChanCap then
      broadcastLoop data rest
        (updateChan s c { s.chans c with buf := (s.chans c).buf ++ [data] })
    else broadcastLoop data rest (evictClient s c)

/-- The `case message := <-h.broadcast` handler: run the delivery loop over
the registered clients.  The second component is the list of system or
user-list frames pushed onto the broadcast channel by this handler: the
source makes no `BroadcastMessage`/`BroadcastUserList` call here, so it is
empty. -/
def broadcastEvent (s : HubState) (data : Msg) : HubState × List Msg :=
  (broadcastLoop data s.clients s, [])

/-- Go error results of `Hub.SendPrivateMessage`, plus the panic outcome of a
send on a closed channel (recovered by the wrapper in the hub loop's
`privateMessage` case, so the function never returns in that case). -/
inductive SPMResult where
  | delivered
  | notFound
  | deliveryFailed
  | panicked
  deriving DecidableEq, Repr

/-- `Hub.SendPrivateMessage` (lines 249-307): look up the recipient by name
(absent means the "recipient not found or offline" error); serialize (cannot
fail, see header); non-blocking send to the recipient (closed channel panics,
full channel is the "failed to deliver message to recipient" error); then a
best-effort echo to the sender when the sender name resolves (full sender
channel is logged only; closed sender channel panics). -/
def SendPrivateMessage (s : HubState) (from_ to_ : String) (message : Msg) :
    SPMResult × HubState :=
  match alookup s.clientsByName to_ with
  | none => (SPMResult.notFound, s)
  | some recipient =>
    let senderOpt := alookup s.clientsByName from_
    if (s.chans recipient).closed then (SPMResult.panicked, s)
    else if sendChanCap ≤ (s.chans recipient).buf.length then
      (SPMResult.deliveryFailed, s)
    else
      let s1 := updateChan s recipient
        { s.chans recipient with buf := (s.chans recipient).buf ++ [message] }
      match senderOpt with
      | none => (SPMResult.delivered, s1)
      | some sender =>
        if (s1.chans sender).closed then (SPMResult.panicked, s1)
        else if sendChanCap ≤ (s1.chans sender).buf.length then
          (SPMResult.delivered, s1)
        else
          (SPMResult.delivered, updateChan s1 sender
            { s1.chans sender with buf := (s1.chans sender).buf ++ [message] })

/-- `Hub.RegisterClient` (lines 310-338) together with the `register` event it
triggers, taken as one atomic step: insert into `userList`, insert into
`clientsByName` (`UpdateClientName`), insert into the client set, then emit
the join system broadcast and the refreshed user list. -/
def RegisterClient (s : HubState) (c : Nat) (displayName : String) (now : Int) :
    HubState × List Msg :=
  let s1 := { s with userList := aset s.userList c displayName }
  let s2 := { s1 with clientsByName := aset s1.clientsByName displayName c }
  let s3 := { s2 with clients := if c ∈ s2.clients then s2.clients else s2.clients ++ [c] }
  (s3, [systemFrame (displayName ++ " has joined the chat") now, userListFrame s3 now])

/-- `Hub.CanAcceptNewConnection`: `len(h.clients) < maxConcurrentConnections`. -/
def CanAcceptNewConnection (s : HubState) : Bool :=
  s.clients.length < maxConcurrentConnections

/-- Hub operations as observed between events of the hub loop.  `regClient`
is the atomic `RegisterClient` step (the raw `register` channel event occurs
in the repository only inside `RegisterClient`). -/
inductive HubOp where
  | unregister (c : Nat)
  | broadcast (m : Msg)
  | regClient (c : Nat) (name : String)
  deriving DecidableEq, Repr

def applyOp (s : HubState) : HubOp → HubState
  | HubOp.unregister c => (unregisterEvent s c 0).state
  | HubOp.broadcast m => (broadcastEvent s m).1
  | HubOp.regClient c name => (RegisterClient s c name 0).1

def applySeq (s : HubState) (ops : List HubOp) : HubState :=
  ops.foldl applyOp s

/-- The no-rename discipline: a `regClient` step never re-registers a client
that currently holds a different display name. -/
def okStep (s : HubState) : HubOp → Bool
  | HubOp.regClient c name =>
    match alookup s.userList c with
    | none => true
    | some old => old == name
  | _ => true

def okSeq (s : HubState) : List HubOp → Bool
  | [] => true
  | op :: rest => okStep s op && okSeq (applyOp s op) rest

/-- The three-way consistency invariant of the hub's routing state: every
registered client has a display name in `userList`, every named client is
registered, and every `clientsByName` binding points at a client currently
holding exactly that name. -/
def hubInv (s : HubState) : Prop :=
  (∀ c ∈ s.clients, (alookup s.userList c).isSome = true) ∧
  (∀ p ∈ s.userList, p.1 ∈ s.clients) ∧
  (∀ q ∈ s.clientsByName, alookup s.userList q.2 = some q.1)

/-! ## Claim-side definitions

The two definitions below are written from the wording of a claim, not from
the source; each exists only to be compared against the corresponding source
definition. -/

/-- Following the words of claim C6 ("first removes all recorded timestamps
older than one minute before the current time"): remove exactly the
timestamps strictly older than the cutoff, then deny or record as the claim
states. -/
def claimedCheckRateLimit (c : ClientState) (now : Int) : Bool × ClientState :=
  let remaining := c.messageTimestamps.filter (fun t => ¬ t < now - rateLimitWindow)
  if maxMessagesPerMinute ≤ remaining.length then
    (false, { c with messageTimestamps := remaining })
  else
    (true, { c with messageTimestamps := remaining ++ [now] })

/-- Unicode control characters (category Cc): U+0000..U+001F and
U+007F..U+009F. -/
def isControlChar (c : Char) : Bool :=
  c.toNat < 32 || (127 ≤ c.toNat && c.toNat ≤ 159)

/-- Following the words of claim C7: the display name after trimming
surrounding whitespace has (byte) length between 1 and 50, contains no
control character other than tab, line feed and carriage return, matches no
HTML-tag pattern and no script-URI pattern. -/
def claimedNameOk (name : String) : Bool :=
  let t := trimSpace name.data
  (1 ≤ byteLen t && byteLen t ≤ 50) &&
  !(t.any fun c => isControlChar c && c.toNat ≠ 9 && c.toNat ≠ 10 && c.toNat ≠ 13) &&
  !hasHtmlTag t && !hasScriptPattern t

/-! ## Claims -/

/-- C1: contrary to the claim, a schema-valid "private" frame read from a
joined session is handled by the unknown-message-type default branch of the
inbound pump: no request reaches the hub's `SendPrivateMessage` path, and the
session is sent an "Unknown message type: private" error frame.  (The
repository's own private-messaging integration tests send such frames over
the socket and expect delivery, so the missing dispatch case contradicts the
tests.) -/
theorem c1_private_frame_unhandled :
    Msg.Validate { type := "private", from_ := "Alice", to_ := "Bob", content := "hi" } = none ∧
    processFrame { displayName := "Alice" }
        { type := "private", from_ := "Alice", to_ := "Bob", content := "hi" } 5 =
      { client := { displayName := "Alice",
                    lastActivity := 5,
                    sendQueue := [errorFrame "Unknown message type: private" 5] },
        action := HubAction.none,
        panicked := false } := by
  decide


/-- C6 counterexample: a timestamp lying exactly one minute before the
current time is *not* "older than one minute before the current time", yet
`checkRateLimit` removes it (the code keeps only timestamps strictly after
the cutoff).  With thirty timestamps exactly at the cutoff, the claim's
described behavior denies, while the code prunes them all and allows. -/
theorem c6_boundary_counterexample :
    (checkRateLimit { messageTimestamps := List.replicate 30 0 } rateLimitWindow).1 = true ∧
    (checkRateLimit { messageTimestamps := List.replicate 30 0 } rateLimitWindow).2.messageTimestamps
      = [rateLimitWindow] ∧
    (claimedCheckRateLimit { messageTimestamps := List.replicate 30 0 } rateLimitWindow).1
      = false := by
  decide

/-- C6 amended: `checkRateLimit` first removes every recorded timestamp whose
age is at least one minute (one minute old *or older*, not merely strictly
older); if at least 30 timestamps remain it denies without appending,
otherwise it appends the current time and allows. -/
theorem c6_check_rate_limit_amended (c : ClientState) (now : Int) :
    (maxMessagesPerMinute ≤
        (c.messageTimestamps.filter (fun t => now - t < rateLimitWindow)).length →
      checkRateLimit c now = (false,
        { c with messageTimestamps :=
            c.messageTimestamps.filter (fun t => now - t < rateLimitWindow) })) ∧
    ((c.messageTimestamps.filter (fun t => now - t < rateLimitWindow)).length <
        maxMessagesPerMinute →
      checkRateLimit c now = (true,
        { c with messageTimestamps :=
            c.messageTimestamps.filter (fun t => now - t < rateLimitWindow) ++ [now] })) := by
  have hf : c.messageTimestamps.filter (fun t => t > now - rateLimitWindow) =
      c.messageTimestamps.filter (fun t => now - t < rateLimitWindow) := by
    apply List.filter_congr
    intro t _
    have : (t > now - rateLimitWindow) ↔ (now - t < rateLimitWindow) := by omega
    simp [this]
  constructor
  · intro h
    simp only [checkRateLimit, hf, if_pos h]
  · intro h
    have h2 : ¬ maxMessagesPerMinute ≤
        (c.messageTimestamps.filter (fun t => now - t < rateLimitWindow)).length := by omega
    simp only [checkRateLimit, hf, if_neg h2]

/-- C6 witness: the amended theorem at a concrete state below the cap. -/
theorem c6_check_rate_limit_witness :
    checkRateLimit { messageTimestamps := [5] } 10 =
      (true, { messageTimestamps := [5, 10] }) :=
  (c6_check_rate_limit_amended { messageTimestamps := [5] } 10).2 (by decide)

/-- C5 counterexample: a schema-valid chat frame from a session that has not
joined is denied with the expected error frame, but the session's
last-activity timestamp *is* mutated by the denied action (`updateActivity`
runs before the dispatch switch), contradicting the claim that the session's
own state is unchanged. -/
theorem c5_activity_counterexample :
    (processFrame {} { type := "chat", from_ := "Mallory", content := "hi" } 5).client.sendQueue
      = [errorFrame "Must join chat before sending messages" 5] ∧
    (processFrame {} { type := "chat", from_ := "Mallory", content := "hi" } 5).client.lastActivity
      = 5 ∧
    (ClientState.lastActivity {}) = 0 := by
  decide

/-- C5 amended: a policy-denied chat frame (sender not yet joined, or rate
limit exceeded) enqueues exactly one error frame to the originating session,
issues no hub request and no panic (the connection stays open), and leaves
the session state unchanged *except* that the last-activity timestamp is
refreshed to the current time and, on a rate-limit denial, expired rate-limit
timestamps are pruned — no new timestamp is recorded. -/
theorem c5_denied_chat_amended (c : ClientState) (m : Msg) (now : Int)
    (hv : m.Validate = none) (ht : m.type = MessageTypeChat)
    (hopen : c.sendClosed = false) (hroom : c.sendQueue.length < sendChanCap) :
    (c.displayName = "" →
      processFrame c m now =
        { client := { c with lastActivity := now,
                             sendQueue := c.sendQueue ++
                               [errorFrame "Must join chat before sending messages" now] },
          action := HubAction.none,
          panicked := false }) ∧
    (c.displayName ≠ "" →
      maxMessagesPerMinute ≤
          (c.messageTimestamps.filter (fun t => t > now - rateLimitWindow)).length →
      processFrame c m now =
        { client := { c with lastActivity := now,
                             messageTimestamps :=
                               c.messageTimestamps.filter (fun t => t > now - rateLimitWindow),
                             sendQueue := c.sendQueue ++
                               [errorFrame
                                 "Rate limit exceeded. Please slow down your messages." now] },
          action := HubAction.none,
          panicked := false }) := by
  constructor
  · intro hname
    simp [processFrame, hv, ht, MessageTypeChat, MessageTypeJoin, hname,
      sendErrorMessage, hopen, hroom]
  · intro hname hlim
    simp only [processFrame, hv, ht]
    norm_num [MessageTypeChat, MessageTypeJoin]
    simp only [hname, if_neg, checkRateLimit, if_pos hlim]
    simp [hname, sendErrorMessage, hopen, hroom]

/-- C5 witness: the amended theorem at a concrete not-yet-joined session. -/
theorem c5_denied_chat_witness :
    processFrame {} { type := "chat", from_ := "Mallory", content := "hi" } 7 =
      { client := { lastActivity := 7,
                    sendQueue := [errorFrame "Must join chat before sending messages" 7] },
        action := HubAction.none,
        panicked := false } :=
  (c5_denied_chat_amended {} { type := "chat", from_ := "Mallory", content := "hi" } 7
    (by decide) (by decide) (by decide) (by decide)).1 (by decide)

theorem hasBadControl_eq_false_iff (s : List Char) :
    hasBadControl s = false ↔
      ∀ c ∈ s, c.toNat < 32 → c.toNat = 9 ∨ c.toNat = 10 ∨ c.toNat = 13 := by
  unfold hasBadControl
  rw [List.any_eq_false]
  constructor
  · intro h c hc hlt
    have := h c hc
    simp only [Bool.and_eq_true, decide_eq_true_eq, not_and] at this
    by_contra hbad
    push_neg at hbad
    exact this ⟨⟨hlt, hbad.1⟩, hbad.2.1⟩ hbad.2.2
  · intro h c hc
    simp only [Bool.and_eq_true, decide_eq_true_eq, not_and]
    intro hx h13
    rcases h c hc hx.1.1 with h9 | h10' | h13'
    · exact absurd h9 hx.1.2
    · exact absurd h10' hx.2
    · exact absurd h13' h13

theorem validateDisplayName_none_iff (name : String) :
    validateDisplayName name = none ↔
      (1 ≤ byteLen (trimSpace name.data) ∧ byteLen (trimSpace name.data) ≤ 50 ∧
       (∀ c ∈ trimSpace name.data, c.toNat < 32 →
         c.toNat = 9 ∨ c.toNat = 10 ∨ c.toNat = 13) ∧
       hasHtmlTag (trimSpace name.data) = false ∧
       hasScriptPattern (trimSpace name.data) = false) := by
  unfold validateDisplayName
  dsimp only
  have hlen : (1 ≤ byteLen (trimSpace name.data)) ↔ trimSpace name.data ≠ [] := by
    simpa using byteLen_pos_iff (trimSpace name.data)
  split_ifs with h1 h2 h3 h4 h5
  · simp [h1, byteLen]
  · constructor
    · intro h
      exact absurd h (by simp)
    · intro h
      omega
  · rw [← hasBadControl_eq_false_iff] at *
    simp [h3]
  · simp [h4]
  · simp [h5]
  · rw [← hasBadControl_eq_false_iff]
    simp [h1, h3, h4, h5, hlen]
    omega

theorem Validate_join_eq (m : Msg) (hj : m.type = MessageTypeJoin) :
    m.Validate = (match validateDisplayName m.content with
      | some e => some ("join message display name invalid: " ++ e)
      | none => none) := by
  unfold Msg.Validate
  rw [hj]
  simp [MessageTypeJoin, MessageTypeChat, MessageTypePrivate, MessageTypeSystem,
    MessageTypeUserList, MessageTypeError]

/-- C7 counterexample: the claim's acceptance condition and `Validate`
disagree on the join name "a" followed by U+007F (delete).  DEL is a control
character (Unicode category Cc) other than tab, line feed and carriage
return, so the claim rejects the name, but the source only tests runes below
32 and accepts it. -/
theorem c7_del_counterexample :
    ¬ ((Msg.Validate { type := "join", content := "a\x7F" } = none) ↔
       claimedNameOk "a\x7F" = true) := by
  decide

/-- C7 amended: `Validate` accepts a join frame iff the display name, after
trimming surrounding whitespace, has UTF-8 byte length between 1 and 50,
contains no control character *below 32* other than tab, line feed and
carriage return (DEL and the C1 controls are not rejected), matches no
HTML-tag pattern and no script-URI pattern. -/
theorem c7_validate_join_amended (m : Msg) (hj : m.type = MessageTypeJoin) :
    m.Validate = none ↔
      (1 ≤ byteLen (trimSpace m.content.data) ∧ byteLen (trimSpace m.content.data) ≤ 50 ∧
       (∀ c ∈ trimSpace m.content.data, c.toNat < 32 →
         c.toNat = 9 ∨ c.toNat = 10 ∨ c.toNat = 13) ∧
       hasHtmlTag (trimSpace m.content.data) = false ∧
       hasScriptPattern (trimSpace m.content.data) = false) := by
  rw [Validate_join_eq m hj, ← validateDisplayName_none_iff]
  cases h : validateDisplayName m.content <;> simp [h]

/-- C7 witness: the amended equivalence at a concrete join frame. -/
theorem c7_validate_join_witness :
    Msg.Validate { type := "join", content := "Alice" } = none ↔
      (1 ≤ byteLen (trimSpace "Alice".data) ∧ byteLen (trimSpace "Alice".data) ≤ 50 ∧
       (∀ c ∈ trimSpace "Alice".data, c.toNat < 32 →
         c.toNat = 9 ∨ c.toNat = 10 ∨ c.toNat = 13) ∧
       hasHtmlTag (trimSpace "Alice".data) = false ∧
       hasScriptPattern (trimSpace "Alice".data) = false) :=
  c7_validate_join_amended { type := "join", content := "Alice" } (by decide)

theorem unregisterEvent_not_mem (s : HubState) (c : Nat) (now : Int)
    (h : c ∉ s.clients) : unregisterEvent s c now = ⟨s, [], false⟩ := by
  simp [unregisterEvent, h]

/-- C8: a second `unregister` event for the same client is a complete no-op
(the client is gone from the client set after the first event): the state is
untouched, no frame is emitted — in particular the "has left the chat"
system broadcast happens at most once across both events — and the send
channel is not closed again.  The first event closes the channel and
completes its removals and broadcasts even if the channel was already closed
(the close is wrapped in its own `recover`), so an already-closed channel
never surfaces as an error: the theorem assumes nothing about the initial
closed flag. -/
theorem c8_unregister_idempotent (s : HubState) (c : Nat) (now1 now2 : Int)
    (hnd : s.clients.Nodup) (hc : c ∈ s.clients) :
    (unregisterEvent (unregisterEvent s c now1).state c now2).state
        = (unregisterEvent s c now1).state ∧
    (unregisterEvent (unregisterEvent s c now1).state c now2).emitted = [] ∧
    (unregisterEvent (unregisterEvent s c now1).state c now2).didClose = false ∧
    (unregisterEvent s c now1).emitted.countP (fun m => m.type == MessageTypeSystem) ≤ 1 ∧
    ((unregisterEvent s c now1).state.chans c).closed = true := by
  have h1 : (unregisterEvent s c now1).state.clients = s.clients.erase c := by
    simp [unregisterEvent, hc, updateChan]
  have hnotin : c ∉ (unregisterEvent s c now1).state.clients := by
    rw [h1]
    exact hnd.not_mem_erase
  rw [unregisterEvent_not_mem _ _ _ hnotin]
  refine ⟨rfl, rfl, rfl, ?_, ?_⟩
  · simp only [unregisterEvent, if_pos hc]
    by_cases hname : ((alookup s.userList c).getD "") = ""
    · simp [hname, userListFrame, MessageTypeUserList, MessageTypeSystem]
    · simp [hname, userListFrame, systemFrame, MessageTypeUserList, MessageTypeSystem]
  · simp [unregisterEvent, hc, updateChan]

/-- C8 witness: idempotence at a concrete one-client hub. -/
theorem c8_unregister_idempotent_witness :
    (unregisterEvent
        (unregisterEvent
          { clients := [1], userList := [(1, "A")], clientsByName := [("A", 1)] } 1 3).state
        1 4).state
      = (unregisterEvent
          { clients := [1], userList := [(1, "A")], clientsByName := [("A", 1)] } 1 3).state ∧
    (unregisterEvent
        (unregisterEvent
          { clients := [1], userList := [(1, "A")], clientsByName := [("A", 1)] } 1 3).state
        1 4).emitted = [] ∧
    (unregisterEvent
        (unregisterEvent
          { clients := [1], userList := [(1, "A")], clientsByName := [("A", 1)] } 1 3).state
        1 4).didClose = false ∧
    (unregisterEvent
        { clients := [1], userList := [(1, "A")], clientsByName := [("A", 1)] } 1 3).emitted.countP
      (fun m => m.type == MessageTypeSystem) ≤ 1 ∧
    ((unregisterEvent
        { clients := [1], userList := [(1, "A")], clientsByName := [("A", 1)] } 1 3).state.chans
      1).closed = true :=
  c8_unregister_idempotent
    { clients := [1], userList := [(1, "A")], clientsByName := [("A", 1)] } 1 3 4
    (by decide) (by decide)

/-- C4 counterexample: when the recipient is registered under the target name
but its outbound channel is already closed, `SendPrivateMessage` does not
return the delivery failure the claim describes (nor any error): the chosen
send case panics, which the hub loop's wrapper recovers, so no error
notification path runs. -/
theorem c4_closed_recipient_counterexample :
    (SendPrivateMessage
        { clients := [2], userList := [(2, "Bob")], clientsByName := [("Bob", 2)],
          chans := fun _ => { closed := true } }
        "Alice" "Bob" { type := "private", from_ := "Alice", to_ := "Bob", content := "hi" }).1
      = SPMResult.panicked ∧
    SPMResult.panicked ≠ SPMResult.deliveryFailed ∧
    SPMResult.panicked ≠ SPMResult.notFound := by
  decide

/-- C4 amended: `SendPrivateMessage` returns the "recipient not found"
failure and enqueues nothing when no client is registered under the target
name; when the recipient exists with an *open but full* queue it returns the
delivery failure distinct from "not found" and enqueues nothing (a *closed*
recipient queue instead panics); and when the recipient enqueue succeeds, the
best-effort echo to the sender follows within the same sequential operation —
the recipient's queue already holds the frame in every echo outcome — and an
echo failure on a full (open) sender queue never causes an error return. -/
theorem c4_send_private_amended (s : HubState) (from_ to_ : String) (m : Msg) :
    (alookup s.clientsByName to_ = none →
      SendPrivateMessage s from_ to_ m = (SPMResult.notFound, s)) ∧
    (∀ rc, alookup s.clientsByName to_ = some rc → (s.chans rc).closed = false →
      sendChanCap ≤ (s.chans rc).buf.length →
      SendPrivateMessage s from_ to_ m = (SPMResult.deliveryFailed, s)) ∧
    (∀ rc, alookup s.clientsByName to_ = some rc → (s.chans rc).closed = false →
      (s.chans rc).buf.length < sendChanCap →
      ((alookup s.clientsByName from_ = none →
         (SendPrivateMessage s from_ to_ m).1 = SPMResult.delivered ∧
         ((SendPrivateMessage s from_ to_ m).2.chans rc).buf = (s.chans rc).buf ++ [m]) ∧
       (∀ sc, alookup s.clientsByName from_ = some sc → sc ≠ rc →
         (s.chans sc).closed = false →
         (SendPrivateMessage s from_ to_ m).1 = SPMResult.delivered ∧
         ((SendPrivateMessage s from_ to_ m).2.chans rc).buf = (s.chans rc).buf ++ [m] ∧
         (sendChanCap ≤ (s.chans sc).buf.length →
           ((SendPrivateMessage s from_ to_ m).2.chans sc).buf = (s.chans sc).buf) ∧
         ((s.chans sc).buf.length < sendChanCap →
           ((SendPrivateMessage s from_ to_ m).2.chans sc).buf =
             (s.chans sc).buf ++ [m])))) := by
  refine ⟨?_, ?_, ?_⟩
  · intro h
    simp [SendPrivateMessage, h]
  · intro rc hrc hop hful
    have hnr : ¬ (s.chans rc).buf.length < sendChanCap := by omega
    simp [SendPrivateMessage, hrc, hop, hful]
  · intro rc hrc hop hroom
    have hnf : ¬ sendChanCap ≤ (s.chans rc).buf.length := by omega
    constructor
    · intro hs
      simp [SendPrivateMessage, hrc, hop, hnf, hs, updateChan]
    · intro sc hs hne hscop
      have hrcne : ¬ rc = sc := fun he => hne he.symm
      by_cases hful : sendChanCap ≤ (s.chans sc).buf.length
      · have hnr2 : ¬ (s.chans sc).buf.length < sendChanCap := by omega
        refine ⟨?_, ?_, ?_, ?_⟩ <;>
          simp [SendPrivateMessage, hrc, hop, hnf, hs, updateChan, hne, hrcne, hscop,
            hful, hnr2]
      · have hr2 : (s.chans sc).buf.length < sendChanCap := by omega
        refine ⟨?_, ?_, ?_, ?_⟩ <;>
          simp [SendPrivateMessage, hrc, hop, hnf, hs, updateChan, hne, hrcne, hscop,
            hful]

/-- A two-client hub with open empty channels, used by concrete witnesses. -/
def sampleHub : HubState :=
  { clients := [1, 2], userList := [(1, "Alice"), (2, "Bob")],
    clientsByName := [("Alice", 1), ("Bob", 2)] }

def samplePrivateMsg : Msg :=
  { type := "private", from_ := "Alice", to_ := "Bob", content := "hi" }

/-- C4 witness: the amended theorem at a concrete deliverable state. -/
theorem c4_send_private_witness :
    (SendPrivateMessage sampleHub "Alice" "Bob" samplePrivateMsg).1 = SPMResult.delivered ∧
    ((SendPrivateMessage sampleHub "Alice" "Bob" samplePrivateMsg).2.chans 2).buf =
      (sampleHub.chans 2).buf ++ [samplePrivateMsg] ∧
    (sendChanCap ≤ (sampleHub.chans 1).buf.length →
      ((SendPrivateMessage sampleHub "Alice" "Bob" samplePrivateMsg).2.chans 1).buf =
        (sampleHub.chans 1).buf) ∧
    ((sampleHub.chans 1).buf.length < sendChanCap →
      ((SendPrivateMessage sampleHub "Alice" "Bob" samplePrivateMsg).2.chans 1).buf =
        (sampleHub.chans 1).buf ++ [samplePrivateMsg]) :=
  ((c4_send_private_amended sampleHub "Alice" "Bob" samplePrivateMsg).2.2 2
    (by decide) (by decide) (by decide)).2 1 (by decide) (by decide) (by decide)

theorem alookup_mem {α β : Type} [DecidableEq α] (l : List (α × β)) (k : α) (v : β)
    (h : alookup l k = some v) : (k, v) ∈ l := by
  induction l with
  | nil => simp [alookup] at h
  | cons p rest ih =>
    obtain ⟨a, b⟩ := p
    by_cases hp : a = k
    · subst hp
      simp [alookup] at h
      subst h
      exact List.mem_cons_self _ _
    · simp [alookup, hp] at h
      exact List.mem_cons_of_mem _ (ih h)

theorem broadcastLoop_chans_not_mem (data : Msg) (pending : List Nat) (s : HubState)
    (c : Nat) (hc : c ∉ pending) :
    (broadcastLoop data pending s).chans c = s.chans c := by
  induction pending generalizing s with
  | nil => rfl
  | cons d rest ih =>
    have hcd : c ≠ d := by
      intro he
      exact hc (he ▸ List.mem_cons_self d rest)
    have hcr : c ∉ rest := fun h => hc (List.mem_cons_of_mem d h)
    unfold broadcastLoop
    split_ifs with h1 h2
    · rfl
    · rw [ih _ hcr]
      simp [updateChan, hcd]
    · rw [ih _ hcr]
      simp [evictClient, updateChan, hcd]

theorem broadcastLoop_clients_mono (data : Msg) (pending : List Nat) (s : HubState)
    (x : Nat) (h : x ∈ (broadcastLoop data pending s).clients) : x ∈ s.clients := by
  induction pending generalizing s with
  | nil => exact h
  | cons d rest ih =>
    unfold broadcastLoop at h
    split_ifs at h with h1 h2
    · exact h
    · have hx := ih _ h
      exact hx
    · have hx := ih _ h
      have hx2 : x ∈ s.clients.erase d := hx
      exact List.mem_of_mem_erase hx2

theorem broadcastLoop_clients_pres (data : Msg) (pending : List Nat) (s : HubState)
    (x : Nat) (hx : x ∈ s.clients) (hnp : x ∉ pending) :
    x ∈ (broadcastLoop data pending s).clients := by
  induction pending generalizing s with
  | nil => exact hx
  | cons d rest ih =>
    have hxd : x ≠ d := by
      intro he
      exact hnp (he ▸ List.mem_cons_self d rest)
    have hxr : x ∉ rest := fun h => hnp (List.mem_cons_of_mem d h)
    unfold broadcastLoop
    split_ifs with h1 h2
    · exact hx
    · exact ih _ hx hxr
    · apply ih _ _ hxr
      show x ∈ s.clients.erase d
      exact (List.mem_erase_of_ne hxd).mpr hx

theorem broadcastLoop_userList_none (data : Msg) (pending : List Nat) (s : HubState)
    (x : Nat) (h : alookup s.userList x = none) :
    alookup (broadcastLoop data pending s).userList x = none := by
  induction pending generalizing s with
  | nil => exact h
  | cons d rest ih =>
    unfold broadcastLoop
    split_ifs with h1 h2
    · exact h
    · exact ih _ h
    · apply ih
      show alookup (aerase s.userList d) x = none
      rw [alookup_aerase]
      split_ifs with hdx
      · rfl
      · exact h

theorem broadcastLoop_byName_mem (data : Msg) (pending : List Nat) (s : HubState)
    (q : String × Nat) (h : q ∈ (broadcastLoop data pending s).clientsByName) :
    q ∈ s.clientsByName := by
  induction pending generalizing s with
  | nil => exact h
  | cons d rest ih =>
    unfold broadcastLoop at h
    split_ifs at h with h1 h2
    · exact h
    · have hq := ih _ h
      exact hq
    · have hq := ih _ h
      have hq2 : q ∈ aerase s.clientsByName ((alookup s.userList d).getD "") := hq
      exact mem_aerase _ _ _ hq2

set_option maxRecDepth 40000 in
/-- C9 counterexample: a stale alias left by a rename survives broadcast
eviction.  With `clientsByName` holding both "A" and "B" for client 1 (whose
current name in `userList` is "B") and a full open queue, the broadcast
evicts client 1 but only the "B" entry is deleted: the client is *not*
removed from `clientsByName`, contrary to the claim. -/
theorem c9_stale_alias_counterexample :
    (1 ∉ (broadcastEvent
        { clients := [1], userList := [(1, "B")],
          clientsByName := [("A", 1), ("B", 1)],
          chans := fun _ => { buf := List.replicate sendChanCap (systemFrame "x" 0) } }
        (systemFrame "hello" 0)).1.clients) ∧
    alookup (broadcastEvent
        { clients := [1], userList := [(1, "B")],
          clientsByName := [("A", 1), ("B", 1)],
          chans := fun _ => { buf := List.replicate sendChanCap (systemFrame "x" 0) } }
        (systemFrame "hello" 0)).1.clientsByName "A" = some 1 := by
  decide

/-- C9 amended: when the broadcast loop visits a registered recipient with a
full, open outbound queue it takes the eviction branch: the recipient is
removed from the client set and from `userList`, and its *current* display
name entry is removed from `clientsByName` (entries under former names
persist); unlike the unregister event path no system broadcast and no
user-list frame is emitted by the broadcast handler; and the eviction itself
leaves every other client's outbound channel, registration and name entry
untouched. -/
theorem c9_eviction_frame_amended (s : HubState) (c : Nat) (data : Msg)
    (hnd : s.clients.Nodup) (hc : c ∈ s.clients)
    (hopen : (s.chans c).closed = false)
    (hfull : sendChanCap ≤ (s.chans c).buf.length) :
    (∀ rest, broadcastLoop data (c :: rest) s = broadcastLoop data rest (evictClient s c)) ∧
    c ∉ (evictClient s c).clients ∧
    alookup (evictClient s c).userList c = none ∧
    alookup (evictClient s c).clientsByName ((alookup s.userList c).getD "") = none ∧
    (∀ x, x ≠ c → (evictClient s c).chans x = s.chans x) ∧
    (∀ x, x ≠ c → (x ∈ (evictClient s c).clients ↔ x ∈ s.clients)) ∧
    (∀ x, x ≠ c → alookup (evictClient s c).userList x = alookup s.userList x) ∧
    (broadcastEvent s data).2 = [] := by
  have hnl : ¬ (s.chans c).buf.length < sendChanCap := by omega
  refine ⟨?_, ?_, ?_, ?_, ?_, ?_, ?_, rfl⟩
  · intro rest
    rw [broadcastLoop.eq_def]
    dsimp only
    rw [hopen]
    simp [hnl]
  · show c ∉ s.clients.erase c
    exact hnd.not_mem_erase
  · show alookup (aerase s.userList c) c = none
    rw [alookup_aerase]
    simp
  · show alookup (aerase s.clientsByName ((alookup s.userList c).getD "")) _ = none
    rw [alookup_aerase]
    simp
  · intro x hx
    show (if x = c then _ else s.chans x) = s.chans x
    simp [hx]
  · intro x hx
    exact List.mem_erase_of_ne hx
  · intro x hx
    show alookup (aerase s.userList c) x = alookup s.userList x
    rw [alookup_aerase]
    have : ¬ c = x := fun he => hx he.symm
    simp [this]

/-- A one-client hub whose only channel is open and full. -/
def fullHub : HubState :=
  { clients := [1], userList := [(1, "A")], clientsByName := [("A", 1)],
    chans := fun _ => { buf := List.replicate sendChanCap (systemFrame "x" 0) } }

set_option maxRecDepth 40000 in
/-- C9 witness: the amended theorem at a concrete full-queue client. -/
theorem c9_eviction_frame_witness :
    (∀ rest, broadcastLoop (systemFrame "hello" 0) (1 :: rest) fullHub =
      broadcastLoop (systemFrame "hello" 0) rest (evictClient fullHub 1)) ∧
    1 ∉ (evictClient fullHub 1).clients ∧
    alookup (evictClient fullHub 1).userList 1 = none ∧
    alookup (evictClient fullHub 1).clientsByName
      ((alookup fullHub.userList 1).getD "") = none ∧
    (∀ x, x ≠ 1 → (evictClient fullHub 1).chans x = fullHub.chans x) ∧
    (∀ x, x ≠ 1 → (x ∈ (evictClient fullHub 1).clients ↔ x ∈ fullHub.clients)) ∧
    (∀ x, x ≠ 1 → alookup (evictClient fullHub 1).userList x = alookup fullHub.userList x) ∧
    (broadcastEvent fullHub (systemFrame "hello" 0)).2 = [] :=
  c9_eviction_frame_amended fullHub 1 (systemFrame "hello" 0)
    (by decide) (by decide) (by decide)
    (by simp [fullHub, sendChanCap, List.length_replicate])

theorem broadcastLoop_cons_enq (data : Msg) (d : Nat) (rest : List Nat) (s : HubState)
    (hop : (s.chans d).closed = false) (hroom : (s.chans d).buf.length < sendChanCap) :
    broadcastLoop data (d :: rest) s =
      broadcastLoop data rest
        (updateChan s d { s.chans d with buf := (s.chans d).buf ++ [data] }) := by
  rw [broadcastLoop.eq_def]
  dsimp only
  rw [hop]
  simp [hroom]

theorem broadcastLoop_cons_evict (data : Msg) (d : Nat) (rest : List Nat) (s : HubState)
    (hop : (s.chans d).closed = false) (hfull : ¬ (s.chans d).buf.length < sendChanCap) :
    broadcastLoop data (d :: rest) s = broadcastLoop data rest (evictClient s d) := by
  rw [broadcastLoop.eq_def]
  dsimp only
  rw [hop]
  simp [hfull]

theorem broadcastLoop_main (data : Msg) (pending : List Nat) :
    ∀ (s : HubState),
    pending.Nodup →
    (∀ c ∈ pending, c ∈ s.clients) →
    (∀ c ∈ pending, (s.chans c).closed = false) →
    (∀ q ∈ s.clientsByName, alookup s.userList q.2 = some q.1) →
    s.clients.Nodup →
    ∀ c ∈ pending,
      ((s.chans c).buf.length < sendChanCap →
        ((broadcastLoop data pending s).chans c).buf = (s.chans c).buf ++ [data] ∧
        c ∈ (broadcastLoop data pending s).clients) ∧
      (sendChanCap ≤ (s.chans c).buf.length →
        c ∉ (broadcastLoop data pending s).clients ∧
        alookup (broadcastLoop data pending s).userList c = none ∧
        (∀ n, alookup (broadcastLoop data pending s).clientsByName n ≠ some c)) := by
  induction pending with
  | nil =>
    intro s _ _ _ _ _ c hc
    cases hc
  | cons d rest ih =>
    intro s hpnd hsub hopen hcoh hnd c hc
    have hdop : (s.chans d).closed = false := hopen d (List.mem_cons_self d rest)
    have hdrest : d ∉ rest := (List.nodup_cons.mp hpnd).1
    have hrestnd : rest.Nodup := (List.nodup_cons.mp hpnd).2
    by_cases hroom : (s.chans d).buf.length < sendChanCap
    · rw [broadcastLoop_cons_enq data d rest s hdop hroom]
      set s1 := updateChan s d { s.chans d with buf := (s.chans d).buf ++ [data] } with hs1
      have hchans1 : ∀ x, x ≠ d → s1.chans x = s.chans x := by
        intro x hx
        simp [hs1, updateChan, hx]
      rcases List.mem_cons.mp hc with rfl | hcr
      · constructor
        · intro _
          constructor
          · rw [broadcastLoop_chans_not_mem data rest s1 c hdrest]
            simp [hs1, updateChan]
          · exact broadcastLoop_clients_pres data rest s1 c (hsub c hc) hdrest
        · intro habs
          omega
      · have hcd : c ≠ d := fun he => hdrest (he ▸ hcr)
        have main := ih s1 hrestnd
          (fun x hx => hsub x (List.mem_cons_of_mem d hx))
          (fun x hx => by
            rw [hchans1 x (fun he => hdrest (he ▸ hx))]
            exact hopen x (List.mem_cons_of_mem d hx))
          hcoh hnd c hcr
        rw [hchans1 c hcd] at main
        exact main
    · rw [broadcastLoop_cons_evict data d rest s hdop hroom]
      set s1 := evictClient s d with hs1
      have hchans1 : ∀ x, x ≠ d → s1.chans x = s.chans x := by
        intro x hx
        simp [hs1, evictClient, updateChan, hx]
      have hclients1 : s1.clients = s.clients.erase d := rfl
      have huser1 : s1.userList = aerase s.userList d := rfl
      have hname1 : s1.clientsByName =
          aerase s.clientsByName ((alookup s.userList d).getD "") := rfl
      have hcoh1 : ∀ q ∈ s1.clientsByName, alookup s1.userList q.2 = some q.1 := by
        intro q hq
        rw [hname1] at hq
        have hmem := mem_aerase _ _ _ hq
        have hcq := hcoh q hmem
        have hq1 : q.1 ≠ (alookup s.userList d).getD "" := by
          have := (List.mem_filter.mp hq).2
          simpa using this
        rw [huser1, alookup_aerase]
        split_ifs with hdq
        · exfalso
          apply hq1
          rw [← hdq] at hcq
          rw [hcq]
          rfl
        · exact hcq
      rcases List.mem_cons.mp hc with rfl | hcr
      · constructor
        · intro habs
          omega
        · intro _
          refine ⟨?_, ?_, ?_⟩
          · intro hin
            have hm := broadcastLoop_clients_mono data rest s1 c hin
            rw [hclients1] at hm
            exact hnd.not_mem_erase hm
          · apply broadcastLoop_userList_none
            rw [huser1, alookup_aerase]
            simp
          · intro n hn
            have hmem := alookup_mem _ _ _ hn
            have hmem1 := broadcastLoop_byName_mem data rest s1 _ hmem
            rw [hname1] at hmem1
            have hne := (List.mem_filter.mp hmem1).2
            have hmem0 := mem_aerase _ _ _ hmem1
            have hcq := hcoh (n, c) hmem0
            simp only [decide_eq_true_eq] at hne
            apply hne
            simp [hcq]
      · have hcd : c ≠ d := fun he => hdrest (he ▸ hcr)
        have main := ih s1 hrestnd
          (fun x hx => by
            have hxd : x ≠ d := fun he => hdrest (he ▸ hx)
            rw [hclients1]
            exact (List.mem_erase_of_ne hxd).mpr (hsub x (List.mem_cons_of_mem d hx)))
          (fun x hx => by
            rw [hchans1 x (fun he => hdrest (he ▸ hx))]
            exact hopen x (List.mem_cons_of_mem d hx))
          hcoh1
          (by rw [hclients1]; exact hnd.erase d)
          c hcr
        rw [hchans1 c hcd] at main
        exact main

/-- C2 counterexample: with registered client 1 holding an already-closed
outbound channel (iteration order [1, 2]), the broadcast's send case on the
closed channel panics and the handler-level recover abandons the loop: client
1 is *not* evicted and client 2 — open, with free capacity — never receives
the frame, contrary to both parts of the claim. -/
theorem c2_closed_channel_counterexample :
    (1 ∈ (broadcastEvent
        { clients := [1, 2], userList := [(1, "A"), (2, "B")],
          clientsByName := [("A", 1), ("B", 2)],
          chans := fun x => if x = 1 then { closed := true } else {} }
        (systemFrame "hello" 0)).1.clients) ∧
    ((broadcastEvent
        { clients := [1, 2], userList := [(1, "A"), (2, "B")],
          clientsByName := [("A", 1), ("B", 2)],
          chans := fun x => if x = 1 then { closed := true } else {} }
        (systemFrame "hello" 0)).1.chans 2).buf = [] := by
  decide

/-- C2 amended: for a broadcast event in a hub where *no registered session's
outbound queue is closed* (and the name indices are coherent), every
registered session with free queue capacity is enqueued the frame exactly
once and stays registered, and every registered session with a full queue is
removed from the registered-client set, from `userList`, and from every
`clientsByName` binding, as an immediate side effect of that same broadcast.
A session with an already-closed queue instead panics the handler out of the
delivery loop (see the counterexample). -/
theorem c2_broadcast_delivery_amended (s : HubState) (data : Msg)
    (hnd : s.clients.Nodup)
    (hopen : ∀ c ∈ s.clients, (s.chans c).closed = false)
    (hcoh : ∀ q ∈ s.clientsByName, alookup s.userList q.2 = some q.1) :
    ∀ c ∈ s.clients,
      ((s.chans c).buf.length < sendChanCap →
        ((broadcastEvent s data).1.chans c).buf = (s.chans c).buf ++ [data] ∧
        c ∈ (broadcastEvent s data).1.clients) ∧
      (sendChanCap ≤ (s.chans c).buf.length →
        c ∉ (broadcastEvent s data).1.clients ∧
        alookup (broadcastEvent s data).1.userList c = none ∧
        (∀ n, alookup (broadcastEvent s data).1.clientsByName n ≠ some c)) :=
  broadcastLoop_main data s.clients s hnd (fun _ h => h) hopen hcoh hnd

/-- C2 witness: the amended theorem at a concrete all-open two-client hub. -/
theorem c2_broadcast_delivery_witness :
    ((sampleHub.chans 2).buf.length < sendChanCap →
      ((broadcastEvent sampleHub (systemFrame "hello" 0)).1.chans 2).buf =
        (sampleHub.chans 2).buf ++ [systemFrame "hello" 0] ∧
      2 ∈ (broadcastEvent sampleHub (systemFrame "hello" 0)).1.clients) ∧
    (sendChanCap ≤ (sampleHub.chans 2).buf.length →
      2 ∉ (broadcastEvent sampleHub (systemFrame "hello" 0)).1.clients ∧
      alookup (broadcastEvent sampleHub (systemFrame "hello" 0)).1.userList 2 = none ∧
      (∀ n, alookup (broadcastEvent sampleHub (systemFrame "hello" 0)).1.clientsByName n ≠
        some 2)) :=
  c2_broadcast_delivery_amended sampleHub (systemFrame "hello" 0)
    (by decide) (by decide) (by decide) 2 (by decide)

theorem mem_aset_weak {α β : Type} [DecidableEq α] (l : List (α × β)) (k : α) (v : β)
    (p : α × β) (h : p ∈ aset l k v) : p = (k, v) ∨ p ∈ l := by
  induction l with
  | nil =>
    simp [aset] at h
    exact Or.inl h
  | cons q rest ih =>
    by_cases hq : q.1 = k
    · simp only [aset, if_pos hq] at h
      rcases List.mem_cons.mp h with h1 | h2
      · exact Or.inl h1
      · exact Or.inr (List.mem_cons_of_mem q h2)
    · simp only [aset, if_neg hq] at h
      rcases List.mem_cons.mp h with h1 | h2
      · exact Or.inr (h1 ▸ List.mem_cons_self q rest)
      · rcases ih h2 with h3 | h4
        · exact Or.inl h3
        · exact Or.inr (List.mem_cons_of_mem q h4)

/-- The hub invariant together with distinctness of the registered list (the
model counterpart of `clients` being a Go map). -/
def hubInvN (s : HubState) : Prop :=
  hubInv s ∧ s.clients.Nodup

theorem evictClient_invN (s : HubState) (c : Nat) (h : hubInvN s) :
    hubInvN (evictClient s c) := by
  obtain ⟨⟨i1, i2, i3⟩, hnd⟩ := h
  refine ⟨⟨?_, ?_, ?_⟩, ?_⟩
  · intro x hx
    have hx1 : x ∈ s.clients.erase c := hx
    have hxc : x ≠ c := by
      intro he
      exact hnd.not_mem_erase (he ▸ hx1)
    have hxs := List.mem_of_mem_erase hx1
    show (alookup (aerase s.userList c) x).isSome = true
    rw [alookup_aerase]
    have hcx : ¬ c = x := fun he => hxc he.symm
    rw [if_neg hcx]
    exact i1 x hxs
  · intro p hp
    have hp1 : p ∈ aerase s.userList c := hp
    have hpm := mem_aerase _ _ _ hp1
    have hpc : p.1 ≠ c := by
      have := (List.mem_filter.mp hp1).2
      simpa using this
    show p.1 ∈ s.clients.erase c
    exact (List.mem_erase_of_ne hpc).mpr (i2 p hpm)
  · intro q hq
    have hq1 : q ∈ aerase s.clientsByName ((alookup s.userList c).getD "") := hq
    have hqm := mem_aerase _ _ _ hq1
    have hcq := i3 q hqm
    have hqn : q.1 ≠ (alookup s.userList c).getD "" := by
      have := (List.mem_filter.mp hq1).2
      simpa using this
    show alookup (aerase s.userList c) q.2 = some q.1
    rw [alookup_aerase]
    split_ifs with hcq2
    · exfalso
      apply hqn
      rw [← hcq2] at hcq
      rw [hcq]
      rfl
    · exact hcq
  · show (s.clients.erase c).Nodup
    exact hnd.erase c

theorem broadcastLoop_invN (data : Msg) (pending : List Nat) :
    ∀ s : HubState, hubInvN s → hubInvN (broadcastLoop data pending s) := by
  induction pending with
  | nil => exact fun s h => h
  | cons d rest ih =>
    intro s h
    rw [broadcastLoop.eq_def]
    dsimp only
    split_ifs with h1 h2
    · exact h
    · exact ih _ h
    · exact ih _ (evictClient_invN s d h)

theorem unregisterEvent_state_eq (s : HubState) (c : Nat) (now : Int)
    (h : c ∈ s.clients) : (unregisterEvent s c now).state = evictClient s c := by
  simp only [unregisterEvent, if_pos h]
  rfl

theorem RegisterClient_invN (s : HubState) (c : Nat) (name : String)
    (h : hubInvN s) (hok : okStep s (HubOp.regClient c name) = true) :
    hubInvN (RegisterClient s c name 0).1 := by
  obtain ⟨⟨i1, i2, i3⟩, hnd⟩ := h
  have hcase : alookup s.userList c = none ∨ alookup s.userList c = some name := by
    have hok2 : (match alookup s.userList c with
        | none => true
        | some old => (old == name)) = true := hok
    cases he : alookup s.userList c with
    | none => exact Or.inl rfl
    | some old =>
      rw [he] at hok2
      simp at hok2
      right
      rw [hok2]
  have hmemins : c ∈ (RegisterClient s c name 0).1.clients := by
    show c ∈ (if c ∈ s.clients then s.clients else s.clients ++ [c])
    split_ifs with hcs
    · exact hcs
    · exact List.mem_append_right _ (List.mem_cons_self c [])
  refine ⟨⟨?_, ?_, ?_⟩, ?_⟩
  · intro x hx
    show (alookup (aset s.userList c name) x).isSome = true
    rw [alookup_aset]
    split_ifs with hcx
    · rfl
    · have hxs : x ∈ s.clients := by
        have hx1 : x ∈ (if c ∈ s.clients then s.clients else s.clients ++ [c]) := hx
        split_ifs at hx1 with hcs
        · exact hx1
        · rcases List.mem_append.mp hx1 with hxa | hxb
          · exact hxa
          · exfalso
            exact hcx (List.mem_singleton.mp hxb).symm
      exact i1 x hxs
  · intro p hp
    have hp1 : p ∈ aset s.userList c name := hp
    rcases mem_aset_weak _ _ _ _ hp1 with h1 | h2
    · rw [h1]
      exact hmemins
    · have := i2 p h2
      show p.1 ∈ (if c ∈ s.clients then s.clients else s.clients ++ [c])
      split_ifs with hcs
      · exact this
      · exact List.mem_append_left _ this
  · intro q hq
    have hq1 : q ∈ aset s.clientsByName name c := hq
    rcases mem_aset_weak _ _ _ _ hq1 with h1 | h2
    · rw [h1]
      show alookup (aset s.userList c name) c = some name
      rw [alookup_aset]
      simp
    · have hcq := i3 q h2
      show alookup (aset s.userList c name) q.2 = some q.1
      rw [alookup_aset]
      split_ifs with hcq2
      · rw [← hcq2] at hcq
        rcases hcase with hn | hs
        · rw [hn] at hcq
          cases hcq
        · rw [hs] at hcq
          cases hcq
          rfl
      · exact hcq
  · show (if c ∈ s.clients then s.clients else s.clients ++ [c]).Nodup
    split_ifs with hcs
    · exact hnd
    · rw [List.nodup_append]
      refine ⟨hnd, List.nodup_singleton c, ?_⟩
      intro a ha hb
      rw [List.mem_singleton.mp hb] at ha
      exact hcs ha

theorem applySeq_invN : ∀ (ops : List HubOp) (s : HubState),
    hubInvN s → okSeq s ops = true → hubInvN (applySeq s ops) := by
  intro ops
  induction ops with
  | nil => exact fun s h _ => h
  | cons op rest ih =>
    intro s h hok
    unfold okSeq at hok
    rw [Bool.and_eq_true] at hok
    have hstep : hubInvN (applyOp s op) := by
      cases op with
      | unregister c =>
        show hubInvN (unregisterEvent s c 0).state
        by_cases hcs : c ∈ s.clients
        · rw [unregisterEvent_state_eq s c 0 hcs]
          exact evictClient_invN s c h
        · rw [unregisterEvent_not_mem s c 0 hcs]
          exact h
      | broadcast m =>
        exact broadcastLoop_invN m s.clients s h
      | regClient c name =>
        exact RegisterClient_invN s c name h hok.1
    have : applySeq s (op :: rest) = applySeq (applyOp s op) rest := rfl
    rw [this]
    exact ih (applyOp s op) hstep hok.2

/-- C3 counterexample: the claim fails under re-registration.  Starting from
an empty hub, `RegisterClient(1, "A")` followed by `RegisterClient(1, "B")`
(both steps of the kind the claim quantifies over) leaves the stale binding
"A" to client 1 in `clientsByName` while client 1 holds the name "B" in
`userList`, so a name maps to a client that does not hold it. -/
theorem c3_rename_counterexample :
    alookup (applySeq emptyHub
      [HubOp.regClient 1 "A", HubOp.regClient 1 "B"]).clientsByName "A" = some 1 ∧
    alookup (applySeq emptyHub
      [HubOp.regClient 1 "A", HubOp.regClient 1 "B"]).userList 1 = some "B" := by
  decide

/-- C3 amended: after any sequence of RegisterClient, unregister, and
broadcast-eviction steps from the empty hub *in which no client is
re-registered under a different display name*, the three routing structures
are mutually consistent: a client has a display name in `userList` iff it is
in the registered-client set, and a name maps to a client in `clientsByName`
only while that client holds that name in `userList`. -/
theorem c3_hub_invariant_amended (ops : List HubOp)
    (hok : okSeq emptyHub ops = true) :
    hubInv (applySeq emptyHub ops) := by
  have hempty : hubInvN emptyHub := by
    refine ⟨⟨?_, ?_, ?_⟩, ?_⟩ <;> simp [emptyHub, List.Nodup]
  exact (applySeq_invN ops emptyHub hempty hok).1

/-- C3 witness: the amended invariant after a concrete well-formed sequence
of joins, a broadcast, and a disconnect. -/
theorem c3_hub_invariant_witness :
    okSeq emptyHub
      [HubOp.regClient 1 "Alice", HubOp.regClient 2 "Bob",
       HubOp.broadcast (systemFrame "hi" 0), HubOp.unregister 1] = true ∧
    hubInv (applySeq emptyHub
      [HubOp.regClient 1 "Alice", HubOp.regClient 2 "Bob",
       HubOp.broadcast (systemFrame "hi" 0), HubOp.unregister 1]) :=
  ⟨by decide, c3_hub_invariant_amended _ (by decide)⟩

/-- C10: `CanAcceptNewConnection` holds iff the registered-client count is
strictly below the ceiling of 1000; the inbound pump issues a registration
request only for a frame of type "join" whose display name passes
`validateDisplayName`; and a hub step adds a client to the registered set
only if it is that client's `RegisterClient` step.  Accepted connections that
have not yet joined therefore never appear in the set that
`CanAcceptNewConnection` counts. -/
theorem c10_admission_control :
    (∀ s : HubState, CanAcceptNewConnection s = true ↔
      s.clients.length < maxConcurrentConnections) ∧
    (∀ (c : ClientState) (m : Msg) (now : Int) (name : String),
      (processFrame c m now).action = HubAction.registerClient name →
      m.type = MessageTypeJoin ∧ validateDisplayName m.content = none) ∧
    (∀ (s : HubState) (op : HubOp) (x : Nat), x ∈ (applyOp s op).clients →
      x ∈ s.clients ∨ ∃ name, op = HubOp.regClient x name) := by
  refine ⟨?_, ?_, ?_⟩
  · intro s
    simp [CanAcceptNewConnection]
  · intro c m now name h
    unfold processFrame at h
    cases hv : m.Validate with
    | some e =>
      rw [hv] at h
      simp at h
    | none =>
      rw [hv] at h
      by_cases hj : m.type = MessageTypeJoin
      · refine ⟨hj, ?_⟩
        rw [if_pos hj] at h
        cases hd : validateDisplayName m.content with
        | some e =>
          rw [hd] at h
          simp at h
        | none => rfl
      · rw [if_neg hj] at h
        by_cases hch : m.type = MessageTypeChat
        · rw [if_pos hch] at h
          dsimp only at h
          split_ifs at h
          all_goals try split at h
          all_goals simp at h
        · rw [if_neg hch] at h
          simp at h
  · intro s op x hx
    cases op with
    | unregister c =>
      left
      by_cases hcs : c ∈ s.clients
      · have heq := unregisterEvent_state_eq s c 0 hcs
        have hx1 : x ∈ (unregisterEvent s c 0).state.clients := hx
        rw [heq] at hx1
        exact List.mem_of_mem_erase hx1
      · have hx1 : x ∈ (unregisterEvent s c 0).state.clients := hx
        rw [unregisterEvent_not_mem s c 0 hcs] at hx1
        exact hx1
    | broadcast m =>
      left
      exact broadcastLoop_clients_mono m s.clients s x hx
    | regClient c name =>
      have hx1 : x ∈ (if c ∈ s.clients then s.clients else s.clients ++ [c]) := hx
      split_ifs at hx1 with hcs
      · exact Or.inl hx1
      · rcases List.mem_append.mp hx1 with h1 | h2
        · exact Or.inl h1
        · right
          exact ⟨name, by rw [List.mem_singleton.mp h2]⟩

/-- C10 witness: the admission predicate at the empty hub, and the join
gating at a concrete join frame whose name carries surrounding whitespace. -/
theorem c10_admission_control_witness :
    (CanAcceptNewConnection emptyHub = true ↔
      emptyHub.clients.length < maxConcurrentConnections) ∧
    (({ type := "join", content := " Alice " } : Msg).type = MessageTypeJoin ∧
      validateDisplayName (Msg.content { type := "join", content := " Alice " }) = none) :=
  ⟨c10_admission_control.1 emptyHub,
   c10_admission_control.2.1 {} { type := "join", content := " Alice " } 0 "Alice" (by decide)⟩

end GoChat
